import Mathlib

/-!
Verification of the xray-audit ingestion pipeline.

This file gives a shallow embedding of the parts of the repository that the
checked properties are about:

* `xray_audit/parser.py`   — access/DNS line parser (`parse_line` and helpers),
* `xray_audit/error_parser.py` — error-log parser and classifier,
* `xray_audit/filtering.py` — `should_drop_event`,
* `xray_audit/tailer.py`   — `LogTailer` (rotation / copytruncate handling),
* `xray_audit/collector.py` — the error-batch filter of `run_forever` and the
  database-commit order of `AuditCollector._flush`,
* `xray_audit/runtime_config.py` — `update_items` / `_normalize_value`,
* `xray_audit/storage.py`  — commit behaviour of `save_state`,
  `ingest_events` and `ingest_error_events` (each call issues its own COMMIT).

Python strings are modelled as `List Char` (the logs are ASCII text; one byte
per character, LF line ends).  SHA-256 hash fields (`raw_hash`,
`signature_hash`) are not modelled: no checked property mentions them.
Python `float` arithmetic in `_parse_duration_ms` is modelled with exact
integer arithmetic; the concrete inputs evaluated below are exactly
representable in binary floating point, so the Python computation agrees.
-/

namespace XrayAudit

abbrev Str := List Char

/-- Python's `\s` / `str.strip()` whitespace for ASCII text. -/
def pyIsSpace (c : Char) : Bool :=
  c = ' ' || c = '\t' || c = '\n' || c = '\r' || c = '\x0b' || c = '\x0c'

/-- ASCII lower-casing, as applied by `str.lower()` on these log lines. -/
def pyLower (s : Str) : Str := s.map Char.toLower

def rstripWith (p : Char → Bool) (s : Str) : Str :=
  (s.reverse.dropWhile p).reverse

/-- Python `str.strip()` (ASCII whitespace). -/
def stripStr (s : Str) : Str := rstripWith pyIsSpace (s.dropWhile pyIsSpace)

/-- Python `str.rstrip("\r\n")`. -/
def rstripCrLf (s : Str) : Str := rstripWith (fun c => c = '\r' || c = '\n') s

/-- Python `sub in s` (substring test). -/
def containsSub : Str → Str → Bool
  | [], needle => needle.isEmpty
  | c :: t, needle => needle.isPrefixOf (c :: t) || containsSub t needle

/-- Python `s.isdigit()` for ASCII text: non-empty and all decimal digits. -/
def pyIsDigitStr (s : Str) : Bool := !s.isEmpty && s.all Char.isDigit

/-- Numeric value of a run of decimal digits. -/
def digitsVal (s : Str) : Nat :=
  s.foldl (fun a c => a * 10 + (c.toNat - '0'.toNat)) 0

def replaceSubAux (old new : Str) : Nat → Str → Str
  | 0, s => s
  | n + 1, s =>
    match s with
    | [] => []
    | c :: t =>
      if !old.isEmpty && old.isPrefixOf (c :: t) then
        new ++ replaceSubAux old new n ((c :: t).drop old.length)
      else
        c :: replaceSubAux old new n t

/-- Python `s.replace(old, new)` (left-to-right, non-overlapping; the `old`
strings used in the source are non-empty). -/
def replaceSub (s old new : Str) : Str := replaceSubAux old new s.length s

/-- Split on a character, keeping empty fields, as Python `s.split(sep)`. -/
def splitOnChar (sep : Char) (s : Str) : List Str :=
  s.foldr
    (fun c acc =>
      match acc with
      | [] => [[c]]
      | cur :: rest => if c = sep then [] :: cur :: rest else (c :: cur) :: rest)
    [[]]

/-- First occurrence split: `some (before, after)` when `sep` occurs. -/
def splitOnce (sep : Char) (s : Str) : Option (Str × Str) :=
  let (a, r) := s.span (fun c => c ≠ sep)
  match r with
  | [] => none
  | _ :: t => some (a, t)

/-- Python `line.split(" ", 2)` (single-space separator, at most two splits,
empty fields kept). -/
def pySplitSpaceMax2 (s : Str) : List Str :=
  match splitOnce ' ' s with
  | none => [s]
  | some (a, r) =>
    match splitOnce ' ' r with
    | none => [a, r]
    | some (b, r2) => [a, b, r2]

/-! ## `_parse_duration_ms` (parser.py lines 34-56)

The token is matched against `^(\d+(?:\.\d+)?)(ns|us|ms|s|m|h)$` and the
value converted to integer milliseconds with Python `int(...)` (truncation
toward zero; the value is non-negative here, so truncation is `Nat` floor
division).  The numeric literal `a.b` is handled exactly as the rational
`(a·10^k + b) / 10^k` where `k` is the number of fractional digits. -/

def durationFromParts (intPart fracPart : Str) (unit : Str) : Option Nat :=
  let k := fracPart.length
  let scaled : Nat := digitsVal intPart * 10 ^ k + digitsVal fracPart
  if unit = [ 'n', 's' ] then some (scaled / (10 ^ k * 1000000))
  else if unit = [ 'u', 's' ] then some (scaled / (10 ^ k * 1000))
  else if unit = [ 'm', 's' ] then some (scaled / 10 ^ k)
  else if unit = [ 's' ] then some (scaled * 1000 / 10 ^ k)
  else if unit = [ 'm' ] then some (scaled * 60000 / 10 ^ k)
  else if unit = [ 'h' ] then some (scaled * 3600000 / 10 ^ k)
  else none

def parseDurationMs (raw : Str) : Option Nat :=
  let token := replaceSub (stripStr raw) [ 'µ', 's' ] [ 'u', 's' ]
  if token.isEmpty then none
  else
    let (intPart, rest) := token.span Char.isDigit
    if intPart.isEmpty then none
    else
      match rest with
      | '.' :: afterDot =>
        let (fracPart, unit) := afterDot.span Char.isDigit
        if fracPart.isEmpty then none
        else durationFromParts intPart fracPart unit
      | unit => durationFromParts intPart [] unit

/-! ## `ipaddress.ip_address` validity (`_is_ip` in parser.py / error_parser.py)

`_is_ip(value)` is `True` exactly when `ipaddress.ip_address(value)` does not
raise.  CPython tries `IPv4Address` first and then `IPv6Address`; only
validity matters here, so the models below return `Bool` and follow
CPython's `_ip_int_from_string` checks (dotted quad with no leading zeros
and octets ≤ 255; hextets of 1-4 hex digits, at most one `::`, optional
embedded IPv4 in the last group, optional non-empty `%scope` suffix). -/

def isHexDigitCh (c : Char) : Bool :=
  c.isDigit || ('a' ≤ c && c ≤ 'f') || ('A' ≤ c && c ≤ 'F')

def validOctet (s : Str) : Bool :=
  !s.isEmpty && s.length ≤ 3 && s.all Char.isDigit &&
    (s.length = 1 || s.headD ' ' ≠ '0') && digitsVal s ≤ 255

def isIPv4 (s : Str) : Bool :=
  let parts := splitOnChar '.' s
  parts.length = 4 && parts.all validOctet

def validHextet (s : Str) : Bool :=
  !s.isEmpty && s.length ≤ 4 && s.all isHexDigitCh

/-- Index of the first empty group strictly inside the list (positions
`1 .. len-2`), and whether a second one exists — CPython's `skip_index`
search for `::`. -/
def innerEmpties (parts : List Str) : List Nat :=
  (List.range parts.length).filter fun i =>
    0 < i && i + 1 < parts.length && (parts.getD i [ ' ' ]).isEmpty

def isIPv6Core (parts : List Str) : Bool :=
  if parts.length > 9 then false
  else
    match innerEmpties parts with
    | [] =>
      parts.length = 8 && !(parts.getD 0 []).isEmpty &&
        !(parts.getLastD []).isEmpty && parts.all validHextet
    | [i] =>
      let hi := if (parts.getD 0 [ ' ' ]).isEmpty then i - 1 else i
      let lo :=
        if (parts.getLastD [ ' ' ]).isEmpty then parts.length - i - 2
        else parts.length - i - 1
      (!(parts.getD 0 [ ' ' ]).isEmpty || i = 1) &&
        (!(parts.getLastD [ ' ' ]).isEmpty || i = parts.length - 2) &&
        hi + lo + 1 ≤ 8 &&
        ((parts.take hi).all validHextet) &&
        ((parts.drop (parts.length - lo)).all validHextet)
    | _ => false

def isIPv6 (s : Str) : Bool :=
  -- `IPv6Address` splits off an optional `%scope_id` (non-empty, no `%`).
  let (addr, scope) := (s.span (fun c => c ≠ '%'), s.dropWhile (fun c => c ≠ '%'))
  let addr := addr.1
  let scopeOk :=
    match scope with
    | [] => true
    | _ :: z => !z.isEmpty && !z.contains '%'
  if !scopeOk then false
  else
    let parts := splitOnChar ':' addr
    if parts.length < 3 then false
    else
      let lastPart := parts.getLastD []
      if lastPart.contains '.' then
        -- embedded IPv4 in the final group becomes two valid hextets
        isIPv4 lastPart && isIPv6Core (parts.dropLast ++ [[ '0' ], [ '0' ]])
      else
        isIPv6Core parts

def isIp (s : Str) : Bool := isIPv4 s || isIPv6 s

/-! ## `datetime.strptime` model

`parser.py` accepts `"%Y/%m/%d %H:%M:%S.%f"` then `"%Y/%m/%d %H:%M:%S"`;
`error_parser.py` applies the same two formats to the regex-matched
`date time` text.  CPython's `_strptime` regexes are: `%Y` exactly four
digits; `%m`, `%d`, `%H`, `%M`, `%S` one or two digits with the field bound
built in; `%f` one to six digits (right-padded to microseconds); literal
whitespace in the format matches a non-empty whitespace run.  The
`datetime` constructor then enforces calendar validity (and rejects the
leap seconds the `%S` regex tolerates). -/

structure PyDateTime where
  year : Nat
  month : Nat
  day : Nat
  hour : Nat
  minute : Nat
  second : Nat
  micro : Nat
deriving DecidableEq, Repr

def isLeapYear (y : Nat) : Bool := y % 4 = 0 && (y % 100 ≠ 0 || y % 400 = 0)

def daysInMonth (y mo : Nat) : Nat :=
  if mo = 2 then (if isLeapYear y then 29 else 28)
  else if mo = 4 || mo = 6 || mo = 9 || mo = 11 then 30
  else 31

/-- The `datetime(...)` constructor checks performed after `_strptime`
extraction. -/
def mkValidDateTime (y mo d h mi s us : Nat) : Option PyDateTime :=
  if 1 ≤ y && y ≤ 9999 && 1 ≤ mo && mo ≤ 12 && 1 ≤ d && d ≤ daysInMonth y mo
      && h ≤ 23 && mi ≤ 59 && s ≤ 59 && us ≤ 999999 then
    some ⟨y, mo, d, h, mi, s, us⟩
  else none

/-- A one-or-two digit numeric field (`%m`/`%d`/`%H`/`%M`/`%S`): the digit
run must have length one or two; its value is range-checked by the caller. -/
def takeField2 (s : Str) : Option (Nat × Str) :=
  let (run, rest) := s.span Char.isDigit
  if run.length = 1 || run.length = 2 then some (digitsVal run, rest) else none

def expectCh (c : Char) (s : Str) : Option Str :=
  match s with
  | x :: t => if x = c then some t else none
  | [] => none

/-- A non-empty whitespace run (a literal blank in a strptime format). -/
def takeWs (s : Str) : Option Str :=
  let (run, rest) := s.span pyIsSpace
  if run.isEmpty then none else some rest

/-- `datetime.strptime(stamp, "%Y/%m/%d %H:%M:%S" [+ ".%f"])`, with the
fraction accepted exactly when `withFrac` is set and the whole input
consumed. -/
def parseStampFmt (stamp : Str) (withFrac : Bool) : Option PyDateTime :=
  let (ys, r0) := stamp.span Char.isDigit
  if ys.length ≠ 4 then none
  else
    match expectCh '/' r0 with
    | none => none
    | some r1 =>
      match takeField2 r1 with
      | none => none
      | some (mo, r2) =>
        if !(1 ≤ mo && mo ≤ 12) then none
        else
          match expectCh '/' r2 with
          | none => none
          | some r3 =>
            match takeField2 r3 with
            | none => none
            | some (d, r4) =>
              if !(1 ≤ d && d ≤ 31) then none
              else
                match takeWs r4 with
                | none => none
                | some r5 =>
                  match takeField2 r5 with
                  | none => none
                  | some (h, r6) =>
                    if h > 23 then none
                    else
                      match expectCh ':' r6 with
                      | none => none
                      | some r7 =>
                        match takeField2 r7 with
                        | none => none
                        | some (mi, r8) =>
                          if mi > 59 then none
                          else
                            match expectCh ':' r8 with
                            | none => none
                            | some r9 =>
                              match takeField2 r9 with
                              | none => none
                              | some (s, r10) =>
                                if s > 61 then none
                                else if withFrac then
                                  match expectCh '.' r10 with
                                  | none => none
                                  | some r11 =>
                                    let (fs, r12) := r11.span Char.isDigit
                                    if 1 ≤ fs.length && fs.length ≤ 6
                                        && r12.isEmpty then
                                      mkValidDateTime (digitsVal ys) mo d h mi s
                                        (digitsVal fs * 10 ^ (6 - fs.length))
                                    else none
                                else if r10.isEmpty then
                                  mkValidDateTime (digitsVal ys) mo d h mi s 0
                                else none

/-- The two-format fallback used by both parsers. -/
def parseStamp (stamp : Str) : Option PyDateTime :=
  match parseStampFmt stamp true with
  | some dt => some dt
  | none => parseStampFmt stamp false

/-! ## Access/DNS line parser (parser.py)

The regexes `_ACCESS_RE` and `_DNS_RE` are deterministic on their inputs
(every backtracking choice is forced, as the token classes `\S+`, `[^\]]+`,
`\s+` cannot trade characters with their neighbours), so they are modelled
by direct scanners. -/

def dropLit (lit s : Str) : Option Str :=
  if lit.isPrefixOf s then some (s.drop lit.length) else none

/-- `\S+`: a non-empty run of non-whitespace characters. -/
def takeToken (s : Str) : Option (Str × Str) :=
  let (run, rest) := s.span (fun c => !pyIsSpace c)
  if run.isEmpty then none else some (run, rest)

def countCh (c : Char) (s : Str) : Nat := (s.filter (fun x => x = c)).length

/-- Python `s.rsplit(sep, 1)` when `sep` occurs: `(before, after)` split at
the last occurrence. -/
def rsplitOnce (sep : Char) (s : Str) : Option (Str × Str) :=
  match splitOnce sep s.reverse with
  | some (aRev, bRev) => some (bRev.reverse, aRev.reverse)
  | none => none

structure AccessGroups where
  src : Str
  status : Str
  dest : Str
  detour : Option Str
  tail : Str
deriving DecidableEq, Repr

/-- `_ACCESS_RE`:
`^from\s+(\S+)\s+(accepted|rejected)\s+(\S+)(?:\s+\[([^\]]+)\])?(.*)$`. -/
def matchAccess (body : Str) : Option AccessGroups :=
  match dropLit "from".toList body with
  | none => none
  | some r0 =>
    match takeWs r0 with
    | none => none
    | some r1 =>
      match takeToken r1 with
      | none => none
      | some (src, r2) =>
        match takeWs r2 with
        | none => none
        | some r3 =>
          let statusStep : Option (Str × Str) :=
            match dropLit "accepted".toList r3 with
            | some r => some ("accepted".toList, r)
            | none =>
              match dropLit "rejected".toList r3 with
              | some r => some ("rejected".toList, r)
              | none => none
          match statusStep with
          | none => none
          | some (status, r4) =>
            match takeWs r4 with
            | none => none
            | some r5 =>
              match takeToken r5 with
              | none => none
              | some (dest, r6) =>
                let detourStep : Option (Str × Str) :=
                  match takeWs r6 with
                  | some ('[' :: r8) =>
                    let (inner, r9) := r8.span (fun c => c ≠ ']')
                    match r9 with
                    | ']' :: r10 =>
                      if inner.isEmpty then none else some (inner, r10)
                    | _ => none
                  | _ => none
                let (detour, tail) :=
                  match detourStep with
                  | some (inner, r10) => (some inner, r10)
                  | none => (none, r6)
                -- `(?P<tail>.*)$`: `.` does not match a newline
                if tail.contains '\n' then none
                else some ⟨src, status, dest, detour, tail⟩

/-- One attempt of `email:\s*(\S+)\s*$` (the part after the `(?:^|\s)`
anchor). -/
def emailAttempt (s : Str) : Option Str :=
  match dropLit "email:".toList s with
  | none => none
  | some r =>
    let r1 := r.dropWhile pyIsSpace
    let (tok, r2) := r1.span (fun c => !pyIsSpace c)
    if tok.isEmpty then none
    else if r2.all pyIsSpace then some tok
    else none

/-- `re.search(r"(?:^|\s)email:\s*(\S+)\s*$", tail)`: leftmost match; the
returned index is `match.start()` (the consumed whitespace included). -/
def emailSearchGo : Str → Nat → Option (Nat × Str)
  | [], _ => none
  | c :: t, i =>
    let here : Option (Nat × Str) :=
      if i = 0 then
        match emailAttempt (c :: t) with
        | some tok => some (0, tok)
        | none =>
          if pyIsSpace c then (emailAttempt t).map (fun tok => (0, tok))
          else none
      else if pyIsSpace c then (emailAttempt t).map (fun tok => (i, tok))
      else none
    match here with
    | some r => some r
    | none => emailSearchGo t (i + 1)

def emailSearch (tail : Str) : Option (Nat × Str) := emailSearchGo tail 0

/-- The bracket form `^\[(.+)\](?::(\d+))?$` of `_split_host_port`
(parser.py lines 74-79).  `.+` is greedy: when the string ends with `]` the
host reaches the last bracket; otherwise a trailing `:digits` after a `]`
is the port. -/
def bracketHostPort (raw : Str) : Option (Str × Option Nat) :=
  match raw with
  | '[' :: rest =>
    if rest.getLastD ' ' = ']' then
      let host := rest.dropLast
      if host.isEmpty then none else some (host, none)
    else
      let (dsRev, r1) := rest.reverse.span Char.isDigit
      match r1 with
      | ':' :: ']' :: hostRev =>
        if dsRev.isEmpty || hostRev.isEmpty then none
        else some (hostRev.reverse, some (digitsVal dsRev.reverse))
      | _ => none
  | _ => none

/-- Strip one leading `tcp:`/`udp:` prefix (both split functions). -/
def stripProto (raw : Str) : Str :=
  if "tcp:".toList.isPrefixOf raw then raw.drop 4
  else if "udp:".toList.isPrefixOf raw then raw.drop 4
  else raw

/-- `_split_host_port` of parser.py (lines 67-98). -/
def splitHostPortAccess (dest : Str) : Str × Option Nat :=
  let raw := stripProto (stripStr dest)
  let brack : Option (Str × Option Nat) :=
    if raw.headD ' ' = '[' then bracketHostPort raw else none
  match brack with
  | some hp => hp
  | none =>
    if isIp raw then (raw, none)
    else if countCh ':' raw = 1 then
      match rsplitOnce ':' raw with
      | some (host, port) =>
        if pyIsDigitStr port then (host, some (digitsVal port)) else (raw, none)
      | none => (raw, none)
    else if countCh ':' raw > 1 then
      -- the second `ipaddress.ip_address(raw)` attempt fails like the first
      match rsplitOnce ':' raw with
      | some (host, port) =>
        if pyIsDigitStr port then (host, some (digitsVal port)) else (raw, none)
      | none => (raw, none)
    else (raw, none)

structure AccessEvent where
  event_time : PyDateTime
  user_email : Str
  src : Str
  dest_raw : Str
  dest_host : Str
  dest_port : Option Nat
  status : Str
  detour : Str
  reason : Str
  is_domain : Bool
  confidence : Str
deriving DecidableEq, Repr

structure DNSEvent where
  event_time : PyDateTime
  dns_server : Str
  domain : Str
  ips : List Str
  dns_status : Str
  elapsed_ms : Option Nat
  error_text : Str
deriving DecidableEq, Repr

structure ParsedEvent where
  event_time : PyDateTime
  event_type : Str
  raw_line : Str
  access : Option AccessEvent := none
  dns : Option DNSEvent := none
deriving DecidableEq, Repr

/-- `_parse_access` (parser.py lines 101-137). -/
def parseAccess (eventTime : PyDateTime) (body : Str) : Option AccessEvent :=
  match matchAccess body with
  | none => none
  | some g =>
    let tail := stripStr g.tail
    let detour := stripStr (g.detour.getD [])
    let re : Str × Str :=
      match emailSearch tail with
      | some (start, tok) => (stripStr (tail.take start), tok)
      | none => (tail, "unknown".toList)
    let hp := splitHostPortAccess g.dest
    let isDomain := !hp.1.isEmpty && !isIp hp.1
    some
      { event_time := eventTime
        user_email := re.2
        src := g.src
        dest_raw := g.dest
        dest_host := hp.1
        dest_port := hp.2
        status := g.status
        detour := detour
        reason := re.1
        is_domain := isDomain
        confidence := if isDomain then "high".toList else "low".toList }

structure DnsGroups where
  server : Str
  status : Str
  domain : Str
  ips : Str
  tail : Str
deriving DecidableEq, Repr

/-- The part of `_DNS_RE` after the lazy server group:
`\s+(got answer:|cache HIT:|cache OPTIMISTE:)\s+(\S+)\s+->\s+\[([^\]]*)\](.*)$`. -/
def matchDnsRest (rest : Str) : Option (Str × Str × Str × Str) :=
  match takeWs rest with
  | none => none
  | some r1 =>
    let statusStep : Option (Str × Str) :=
      match dropLit "got answer:".toList r1 with
      | some r => some ("got answer:".toList, r)
      | none =>
        match dropLit "cache HIT:".toList r1 with
        | some r => some ("cache HIT:".toList, r)
        | none =>
          match dropLit "cache OPTIMISTE:".toList r1 with
          | some r => some ("cache OPTIMISTE:".toList, r)
          | none => none
    match statusStep with
    | none => none
    | some (status, r2) =>
      match takeWs r2 with
      | none => none
      | some r3 =>
        match takeToken r3 with
        | none => none
        | some (domain, r4) =>
          match takeWs r4 with
          | none => none
          | some r5 =>
            match dropLit "->".toList r5 with
            | none => none
            | some r6 =>
              match takeWs r6 with
              | none => none
              | some ('[' :: r7) =>
                let (ips, r8) := r7.span (fun c => c ≠ ']')
                match r8 with
                | ']' :: tail =>
                  if tail.contains '\n' then none
                  else some (status, domain, ips, tail)
                | _ => none
              | some _ => none

/-- `_DNS_RE` with the lazy `(?P<server>.+?)` group: the shortest non-empty
newline-free server prefix whose remainder matches `matchDnsRest`. -/
def matchDnsAux : Str → Str → Option DnsGroups
  | serverRev, rest =>
    match (if serverRev.isEmpty then none else matchDnsRest rest) with
    | some (st, dom, ips, tl) => some ⟨serverRev.reverse, st, dom, ips, tl⟩
    | none =>
      match rest with
      | [] => none
      | '\n' :: _ => none
      | c :: t => matchDnsAux (c :: serverRev) t

def matchDns (body : Str) : Option DnsGroups := matchDnsAux [] body

/-- Leftmost `<([^>]*)>` in the tail: `(inner, whole match)`. -/
def angleSearch : Str → Option (Str × Str)
  | [] => none
  | '<' :: t =>
    match t.span (fun c => c ≠ '>') with
    | (inner, '>' :: _) => some (inner, '<' :: (inner ++ [ '>' ]))
    | _ => none
  | _ :: t => angleSearch t

/-- `_parse_dns` (parser.py lines 140-165); `ips_json` is kept as the list
it encodes. -/
def parseDns (eventTime : PyDateTime) (body : Str) : Option DNSEvent :=
  match matchDns body with
  | none => none
  | some g =>
    let ipsRaw := stripStr g.ips
    let ips := ((splitOnChar ',' ipsRaw).map stripStr).filter (fun x => !x.isEmpty)
    let tail0 := stripStr g.tail
    let (errorText, tail1) :=
      match angleSearch tail0 with
      | some (inner, whole) => (stripStr inner, stripStr (replaceSub tail0 whole []))
      | none => ([], tail0)
    some
      { event_time := eventTime
        dns_server := stripStr g.server
        domain := stripStr g.domain
        ips := ips
        dns_status := stripStr g.status
        elapsed_ms := if tail1.isEmpty then none else parseDurationMs tail1
        error_text := errorText }

/-- `_parse_timestamp_prefix` (parser.py lines 20-31). -/
def parseTimestampPrefix (line : Str) : Option (PyDateTime × Str) :=
  match pySplitSpaceMax2 (stripStr line) with
  | [p0, p1, p2] =>
    match parseStamp (p0 ++ ' ' :: p1) with
    | some dt => some (dt, stripStr p2)
    | none => none
  | _ => none

/-- `parse_line` (parser.py lines 168-201); `raw_hash` is not modelled. -/
def parseLine (rawLine : Str) : Option ParsedEvent :=
  match parseTimestampPrefix rawLine with
  | none => none
  | some (eventTime, body) =>
    let normalizedRaw := rstripCrLf rawLine
    match parseAccess eventTime body with
    | some a =>
      some { event_time := eventTime, event_type := "access".toList,
             raw_line := normalizedRaw, access := some a }
    | none =>
      match parseDns eventTime body with
      | some d =>
        some { event_time := eventTime, event_type := "dns".toList,
               raw_line := normalizedRaw, dns := some d }
      | none =>
        some { event_time := eventTime, event_type := "unknown".toList,
               raw_line := normalizedRaw }

/-! ## Error-log parser (error_parser.py) -/

def isWordCh (c : Char) : Bool := c.isAlpha || c.isDigit || c = '_'

def isCompCh (c : Char) : Bool :=
  c.isAlpha || c.isDigit || c = '_' || c = '.' || c = '/' || c = '-'

structure ErrLineGroups where
  date : Str
  time : Str
  levelRaw : Str
  sid : Option Str
  component : Str
  message : Str
deriving DecidableEq, Repr

/-- `_LINE_RE`: date `\d{4}/\d{2}/\d{2}`, whitespace, time
`\d{2}:\d{2}:\d{2}` with an optional fraction of one to six digits,
whitespace, `[level]` (letters) and whitespace, an optional `[sid]` (digits)
with trailing whitespace, an optional component (letters, digits, and the
characters underscore, dot, slash, dash) followed by a colon and
whitespace, then the message (`.*$`).  Like the access regex this is
deterministic: each optional group is taken exactly when it matches, and a
failing mandatory step cannot be repaired by backtracking. -/
def matchErrorLine (s : Str) : Option ErrLineGroups :=
  let (y, r0) := s.span Char.isDigit
  if y.length ≠ 4 then none
  else
    match expectCh '/' r0 with
    | none => none
    | some r1 =>
      let (mo, r2) := r1.span Char.isDigit
      if mo.length ≠ 2 then none
      else
        match expectCh '/' r2 with
        | none => none
        | some r3 =>
          let (d, r4) := r3.span Char.isDigit
          if d.length ≠ 2 then none
          else
            match takeWs r4 with
            | none => none
            | some r5 =>
              let (h, r6) := r5.span Char.isDigit
              if h.length ≠ 2 then none
              else
                match expectCh ':' r6 with
                | none => none
                | some r7 =>
                  let (mi, r8) := r7.span Char.isDigit
                  if mi.length ≠ 2 then none
                  else
                    match expectCh ':' r8 with
                    | none => none
                    | some r9 =>
                      let (sec, r10) := r9.span Char.isDigit
                      if sec.length ≠ 2 then none
                      else
                        let fracStep : Option (Str × Str) :=
                          match r10 with
                          | '.' :: t =>
                            let (run, rest) := t.span Char.isDigit
                            if 1 ≤ run.length && run.length ≤ 6 then
                              some (run, rest)
                            else none
                          | _ => some ([], r10)
                        match fracStep with
                        | none => none
                        | some (frac, r11) =>
                          match takeWs r11 with
                          | none => none
                          | some ('[' :: r12) =>
                            let (lvl, r13) := r12.span Char.isAlpha
                            if lvl.isEmpty then none
                            else
                              match r13 with
                              | ']' :: r14 =>
                                match takeWs r14 with
                                | none => none
                                | some r15 =>
                                  let sidStep : Option (Str × Str) :=
                                    match r15 with
                                    | '[' :: t =>
                                      let (ds, rest) := t.span Char.isDigit
                                      if ds.isEmpty then none
                                      else
                                        match rest with
                                        | ']' :: r16 =>
                                          (takeWs r16).map (fun r17 => (ds, r17))
                                        | _ => none
                                    | _ => none
                                  let (sid, rA) :=
                                    match sidStep with
                                    | some (ds, r) => (some ds, r)
                                    | none => (none, r15)
                                  let compStep : Option (Str × Str) :=
                                    let (run, rest) := rA.span isCompCh
                                    if run.isEmpty then none
                                    else
                                      match rest with
                                      | ':' :: r16 =>
                                        (takeWs r16).map (fun r17 => (run, r17))
                                      | _ => none
                                  let (component, msg) :=
                                    match compStep with
                                    | some (run, r) => (run, r)
                                    | none => ([], rA)
                                  if msg.contains '\n' then none
                                  else
                                    some
                                      ⟨y ++ '/' :: mo ++ '/' :: d,
                                        h ++ ':' :: mi ++ ':' :: sec ++
                                          (if frac.isEmpty then [] else '.' :: frac),
                                        lvl, sid, component, msg⟩
                              | _ => none
                          | some _ => none

/-- `_normalize_level` (error_parser.py lines 91-95). -/
def normalizeLevel (raw : Str) : Str :=
  let v := pyLower (stripStr raw)
  if v = "debug".toList || v = "info".toList || v = "warning".toList
      || v = "error".toList then v
  else "unknown".toList

/-- `level_rank` (error_parser.py lines 80-88). -/
def levelRank (level : Str) : Nat :=
  let t := pyLower (stripStr level)
  if t = "debug".toList then 10
  else if t = "info".toList then 20
  else if t = "warning".toList then 30
  else if t = "error".toList then 40
  else if t = "unknown".toList then 0
  else 0

/-- `_classify` (error_parser.py lines 107-133). -/
def classify (component message level : Str) : Str :=
  let c := pyLower component
  let m := pyLower message
  if (containsSub c "proxy/vless/encoding".toList
        || containsSub m "proxy/vless/encoding".toList)
      && containsSub m "invalid request version".toList then
    "probe_invalid_vless".toList
  else if containsSub m "127.0.0.1".toList
      && containsSub m "detour [api]".toList then
    "api_loopback".toList
  else if containsSub c "dns".toList || containsSub m "dns".toList then
    if containsSub m "timeout".toList || containsSub m "failed".toList
        || containsSub m "error".toList then
      "dns_error".toList
    else "dns_info".toList
  else if containsSub m "timeout".toList
      || containsSub m "deadline exceeded".toList
      || containsSub m "i/o timeout".toList then
    "network_timeout".toList
  else if containsSub m "refused".toList
      || containsSub m "connection reset".toList then
    "network_refused".toList
  else if containsSub m "invalid user".toList
      || containsSub m "failed to find user".toList
      || containsSub m "unauthorized".toList then
    "auth_error".toList
  else if containsSub c "dispatch".toList || containsSub c "dispatcher".toList then
    "routing".toList
  else if level = "error".toList then "runtime_error".toList
  else if level = "warning".toList then "runtime_warning".toList
  else if level = "debug".toList then "debug_trace".toList
  else "runtime_info".toList

/-- One attempt of `from\s+(\S+)` after a word boundary (`_SRC_RE`). -/
def srcAttempt (s : Str) : Option Str :=
  match dropLit "from".toList s with
  | none => none
  | some r =>
    match takeWs r with
    | none => none
    | some r1 => (takeToken r1).map (fun p => p.1)

/-- One attempt of `for\s+((?:tcp|udp):\S+)` after a word boundary
(`_DEST_RE`); the capture includes the protocol prefix. -/
def destAttempt (s : Str) : Option Str :=
  match dropLit "for".toList s with
  | none => none
  | some r =>
    match takeWs r with
    | none => none
    | some r1 =>
      match dropLit "tcp:".toList r1 with
      | some r2 => (takeToken r2).map (fun p => "tcp:".toList ++ p.1)
      | none =>
        match dropLit "udp:".toList r1 with
        | some r2 => (takeToken r2).map (fun p => "udp:".toList ++ p.1)
        | none => none

/-- `re.search` with a `\b`-anchored pattern: try every position whose
preceding character is not a word character. -/
def boundarySearch (attempt : Str → Option Str) : Option Char → Str → Option Str
  | prev, s =>
    let boundary := match prev with | none => true | some p => !isWordCh p
    match (if boundary then attempt s else none) with
    | some tok => some tok
    | none =>
      match s with
      | [] => none
      | c :: t => boundarySearch attempt (some c) t

def searchSrc (msg : Str) : Option Str := boundarySearch srcAttempt none msg

def searchDest (msg : Str) : Option Str := boundarySearch destAttempt none msg

/-- `_split_host_port` of error_parser.py (lines 142-161; unlike the
parser.py variant, everything that is not a bracket form or a single-colon
`host:digits` comes back as `(raw, None)`). -/
def splitHostPortErr (dest : Str) : Str × Option Nat :=
  let raw := stripProto (stripStr dest)
  let brack : Option (Str × Option Nat) :=
    if raw.headD ' ' = '[' then bracketHostPort raw else none
  match brack with
  | some hp => hp
  | none =>
    if countCh ':' raw = 1 then
      match rsplitOnce ':' raw with
      | some (host, port) =>
        if pyIsDigitStr port then (host, some (digitsVal port)) else (raw, none)
      | none => (raw, none)
    else (raw, none)

structure ParsedErrorEvent where
  event_time : PyDateTime
  level : Str
  session_id : Option Nat
  component : Str
  message : Str
  src : Str
  dest_raw : Str
  dest_host : Str
  dest_port : Option Nat
  category : Str
  is_noise : Bool
  raw_line : Str
deriving DecidableEq, Repr

/-- `parse_error_line` (error_parser.py lines 25-77); the two SHA-256 hash
fields are not modelled. -/
def parseErrorLine (rawLine : Str) : Option ParsedErrorEvent :=
  match matchErrorLine (stripStr (rstripCrLf rawLine)) with
  | none => none
  | some g =>
    match parseStamp (g.date ++ ' ' :: g.time) with
    | none => none
    | some eventTime =>
      let level := normalizeLevel g.levelRaw
      let sessionRaw := stripStr (g.sid.getD [])
      let sessionId :=
        if pyIsDigitStr sessionRaw then some (digitsVal sessionRaw) else none
      let component := stripStr g.component
      let message := stripStr g.message
      let src := (searchSrc message).getD []
      let destTriple : Str × Str × Option Nat :=
        match searchDest message with
        | some dRaw =>
          let dRaw2 := stripStr dRaw
          let hp := splitHostPortErr dRaw2
          (dRaw2, hp.1, hp.2)
        | none => ([], [], (none : Option Nat))
      let category := classify component message level
      let isNoise :=
        category = "probe_invalid_vless".toList
          || category = "api_loopback".toList
          || category = "scan_noise".toList
      some
        { event_time := eventTime
          level := level
          session_id := sessionId
          component := component
          message := message
          src := src
          dest_raw := destTriple.1
          dest_host := destTriple.2.1
          dest_port := destTriple.2.2
          category := category
          is_noise := isNoise
          raw_line := rstripCrLf rawLine }

/-! ## `should_drop_event` (filtering.py lines 7-35)

The runtime knobs the collector reads into its per-iteration
`filter_settings` namespace. -/

structure FilterConfig where
  drop_api_to_api : Bool
  drop_loopback_traffic : Bool
  drop_invalid_vless_probe : Bool
  exclude_detours : List Str
deriving DecidableEq, Repr

def shouldDropEvent (ev : ParsedEvent) (cfg : FilterConfig) : Bool :=
  match ev.access with
  | none => false
  | some a =>
    if cfg.drop_api_to_api && a.detour = "api -> api".toList then true
    else if !cfg.exclude_detours.isEmpty && cfg.exclude_detours.contains a.detour then
      true
    else if cfg.drop_invalid_vless_probe
        && (a.status = "rejected".toList
            && a.dest_raw = "proxy/vless/encoding:".toList
            && containsSub (pyLower a.reason) "invalid request version".toList) then
      true
    else if cfg.drop_loopback_traffic
        && ("127.0.0.1".toList.isPrefixOf (pyLower a.src)
            || "[::1]".toList.isPrefixOf (pyLower a.src)
            || "::1".toList.isPrefixOf (pyLower a.src)
            || [ "127.0.0.1".toList, "localhost".toList, "::1".toList,
                 "[::1]".toList ].contains (pyLower a.dest_host)) then
      true
    else false

/-! ## Collector error-side filter (collector.py lines 239-261)

For each error-log line the loop parses it, skips it when
`level_rank(level) < min_error_level_rank`, skips it when
`error_drop_noise` is set and the event is noise, and otherwise appends it
to `error_batch`; `ingest_error_events` stores every batch element. -/

def collectErrorBatch (lines : List Str) (minRank : Nat) (dropNoise : Bool) :
    List ParsedErrorEvent :=
  (lines.filterMap parseErrorLine).filter fun e =>
    !(levelRank e.level < minRank) && !(dropNoise && e.is_noise)

/-! ## `LogTailer` (tailer.py)

The filesystem is a path with a current inode and a content for every
inode (rotation moves the path to a new inode and keeps the old content
readable through an already-open handle, as POSIX does).  Content is ASCII
text, one byte per character.  An open Python text handle is `(inode,
position)`; `readline` returns the characters up to and including the next
LF, or the remaining partial line at EOF. -/

structure Fs where
  present : Bool
  curInode : Nat
  files : Nat → Str

structure Handle where
  ino : Nat
  pos : Nat
deriving DecidableEq, Repr

structure TailerSt where
  fh : Option Handle
  inode : Option Nat
  offset : Nat
deriving DecidableEq, Repr

def statSize (fs : Fs) : Nat := (fs.files fs.curInode).length

/-- The characters `readline` returns from `content` at `pos`. -/
def takeLine : Str → Str
  | [] => []
  | c :: r => if c = '\n' then [ c ] else c :: takeLine r

def readlineAt (content : Str) (pos : Nat) : Str := takeLine (content.drop pos)

/-- `LogTailer._open` (tailer.py lines 27-38): returns the success flag and
the updated state. -/
def tailerOpen (fs : Fs) (t : TailerSt) : Bool × TailerSt :=
  if fs.present then
    let off := if statSize fs < t.offset then 0 else t.offset
    (true, { fh := some ⟨fs.curInode, off⟩, inode := some fs.curInode, offset := off })
  else (false, t)

/-- The read loop of `read_new_lines` (tailer.py lines 64-70): up to
`maxLines` calls of `readline`, each followed by `offset ← tell()`. -/
def readLoop (fs : Fs) : Nat → TailerSt → List Str × TailerSt
  | 0, t => ([], t)
  | n + 1, t =>
    match t.fh with
    | none => ([], t)
    | some h =>
      let line := readlineAt (fs.files h.ino) h.pos
      if line.isEmpty then ([], t)
      else
        let pos := h.pos + line.length
        let t1 : TailerSt := { t with fh := some ⟨h.ino, pos⟩, offset := pos }
        let r := readLoop fs n t1
        (line :: r.1, r.2)

/-- `LogTailer._check_rotation_or_truncate` (tailer.py lines 45-58). -/
def checkRotationOrTruncate (fs : Fs) (t : TailerSt) : TailerSt :=
  if !fs.present then t
  else if t.inode.any (fun i => fs.curInode != i) then
    -- close the handle, reset the offset, reopen
    (tailerOpen fs { fh := none, inode := t.inode, offset := 0 }).2
  else if statSize fs < t.offset && t.fh.isSome then
    { t with fh := t.fh.map (fun h => ⟨h.ino, 0⟩), offset := 0 }
  else t

/-- The body of `read_new_lines` after `_ensure_open` succeeded: the read
loop, followed by the rotation/truncation check when no line came out
(tailer.py lines 64-75). -/
def readPhase (fs : Fs) (maxLines : Nat) (t1 : TailerSt) : List Str × TailerSt :=
  let r := readLoop fs maxLines t1
  if r.1.isEmpty then ([], checkRotationOrTruncate fs r.2)
  else (r.1, r.2)

/-- `LogTailer.read_new_lines` (tailer.py lines 60-75). -/
def readNewLines (fs : Fs) (t : TailerSt) (maxLines : Nat) : List Str × TailerSt :=
  let o : Bool × TailerSt :=
    match t.fh with
    | some _ => (true, t)
    | none => tailerOpen fs t
  if !o.1 then ([], o.2)
  else readPhase fs maxLines o.2

/-! ## Collector system model (collector.py)

One access-log file followed by its tailer plus the persisted
`collector_state` row for that path, written by
`MySQLIngestor.save_state` (storage.py lines 61-72).  Environment steps
change the file (append, truncate, rotate — all subsumed by an arbitrary
replacement of the filesystem state); a poll step is `read_new_lines`; a
flush step is `AuditCollector._flush` persisting `tailer.state()`
(collector.py lines 125-126).  `_flush` runs whenever the access batch or
the error batch is non-empty, and the error batch is fed by the
independent error log, so a flush is modelled as possible at any time. -/

structure SysSt where
  fs : Fs
  tl : TailerSt
  pIno : Option Nat
  pOff : Nat

inductive CStep
  | env (fs2 : Fs)
  | poll (maxLines : Nat)
  | flush

def stepRun (s : SysSt) : CStep → SysSt
  | .env fs2 => { s with fs := fs2 }
  | .poll n => { s with tl := (readNewLines s.fs s.tl n).2 }
  | .flush => { s with pIno := s.tl.inode, pOff := s.tl.offset }

def runSteps : SysSt → List CStep → SysSt
  | s, [] => s
  | s, st :: rest => runSteps (stepRun s st) rest

/-- The open handle position agrees with the stored offset (true in every
reachable tailer state: `_open` seeks to the offset, each read sets the
offset from `tell()`, and the collector only calls `set_state` with the
handle closed). -/
def posCons (t : TailerSt) : Prop :=
  match t.fh with
  | none => True
  | some h => h.pos = t.offset

/-- The stored inode is the open handle's inode (set together in `_open`). -/
def inoCons (t : TailerSt) : Prop :=
  match t.fh with
  | none => True
  | some h => t.inode = some h.ino

instance (t : TailerSt) : Decidable (posCons t) := by
  unfold posCons; exact match t.fh with
  | none => inferInstanceAs (Decidable True)
  | some h => inferInstanceAs (Decidable (h.pos = t.offset))

instance (t : TailerSt) : Decidable (inoCons t) := by
  unfold inoCons; exact match t.fh with
  | none => inferInstanceAs (Decidable True)
  | some h => inferInstanceAs (Decidable (t.inode = some h.ino))

/-- A poll that observes neither an inode change nor a truncation below the
current offset. -/
def noReset (fs : Fs) (t : TailerSt) : Bool :=
  !(statSize fs < t.offset) &&
    (match t.inode with
     | none => true
     | some i => fs.curInode = i)

/-- Along a run, every poll step satisfies `noReset` in the state where it
fires. -/
def resetFreeRun : SysSt → List CStep → Bool
  | _, [] => true
  | s, st :: rest =>
    (match st with
     | .poll _ => noReset s.fs s.tl
     | _ => true) && resetFreeRun (stepRun s st) rest

/-! ## Database commit order of `AuditCollector._flush`
(collector.py lines 114-135)

Each listed operation issues its own transaction COMMIT:
`ingest_events` commits at storage.py line 160, `save_state` at line 72,
`ingest_error_events` at line 218.  The Redis/stats updates are not
database commits and are omitted. -/

inductive DbCommit
  | eventRows (path : Str)
  | offsetUpdate (path : Str)
  | errorEventRows (path : Str)
deriving DecidableEq, Repr

/-- The sequence of database commits of one `_flush(batch, error_batch)`
call, in program order. -/
def flushCommits (accessPath errorPath : Str)
    (batchNonempty errorBatchNonempty errorTailerEnabled : Bool) : List DbCommit :=
  if !batchNonempty && !errorBatchNonempty then []
  else
    (if batchNonempty then [ DbCommit.eventRows accessPath ] else []) ++
    [ DbCommit.offsetUpdate accessPath ] ++
    (if errorTailerEnabled then
      [ DbCommit.offsetUpdate errorPath ] ++
        (if errorBatchNonempty then [ DbCommit.errorEventRows errorPath ] else [])
    else [])

/-! ## `RuntimeConfigManager.update_items` (runtime_config.py)

`update_items` first normalizes every entry of the batch (raising on the
first unknown key or invalid value) and only then calls
`runtime_config_upsert`, which writes the upserts and history rows
(storage.py lines 459-493).  Request values arrive as JSON, modelled by
`PyVal`; numeric-from-string grammars are simplified to optional sign plus
digits (Python also accepts exponents and underscore grouping — irrelevant
to the properties below, which only distinguish success from failure). -/

inductive PyVal
  | pb (b : Bool)
  | pi (n : Int)
  | pf (num : Int) (den : Nat)  -- the rational num/den, den > 0
  | ps (s : Str)
  | plist (xs : List Str)
deriving DecidableEq, Repr

/-- Python `str()` of a JSON value, to the extent the validators look at
it (bool sets and enum option sets contain only lowercase words, so the
exact float/list renderings never match them). -/
def pyStr : PyVal → Str
  | .pb true => "True".toList
  | .pb false => "False".toList
  | .pi n => (toString n).toList
  | .pf num den => (toString num).toList ++ '/' :: (toString den).toList
  | .ps s => s
  | .plist xs => '[' :: (List.intercalate ", ".toList xs) ++ [ ']' ]

/-- Python `int(raw)`: truncation toward zero for numbers, a digit string
for strings, a TypeError for lists. -/
def pyInt : PyVal → Option Int
  | .pb true => some 1
  | .pb false => some 0
  | .pi n => some n
  | .pf num den => some (Int.tdiv num den)
  | .ps s =>
    let t := stripStr s
    let (sign, ds) : Int × Str :=
      match t with
      | '-' :: r => (-1, r)
      | '+' :: r => (1, r)
      | r => (1, r)
    if pyIsDigitStr ds then some (sign * digitsVal ds) else none
  | .plist _ => none

/-- Python `float(raw)` as an exact rational `(num, den)`. -/
def pyFloat : PyVal → Option (Int × Nat)
  | .pb true => some (1, 1)
  | .pb false => some (0, 1)
  | .pi n => some (n, 1)
  | .pf num den => some (num, den)
  | .ps s =>
    let t := stripStr s
    let (sign, body) : Int × Str :=
      match t with
      | '-' :: r => (-1, r)
      | '+' :: r => (1, r)
      | r => (1, r)
    let (ip, rest) := body.span Char.isDigit
    match rest with
    | [] => if ip.isEmpty then none else some (sign * digitsVal ip, 1)
    | '.' :: fp =>
      if fp.all Char.isDigit && !(ip.isEmpty && fp.isEmpty) then
        some (sign * (digitsVal ip * 10 ^ fp.length + digitsVal fp), 10 ^ fp.length)
      else none
    | _ => none
  | .plist _ => none

structure RuntimeConfigField where
  value_type : Str
  min_value : Option (Int × Nat) := none
  max_value : Option (Int × Nat) := none
  options : List Str := []
deriving DecidableEq, Repr

/-- `_check_range` (runtime_config.py lines 428-432) on the value
`num/den`, bounds inclusive; a bound `some (bn, bd)` is the rational
`bn/bd` with `bd > 0`.  The source stores the bounds as Python floats
(fractional for the interval and timeout fields); the comparisons are
modelled with exact rationals — via cross-multiplication, valid since both
denominators are positive — which agrees with the IEEE comparison except
for inputs within one float ulp of a fractional bound. -/
def checkRange (f : RuntimeConfigField) (num : Int) (den : Nat) : Bool :=
  (match f.min_value with
   | some (bn, bd) => !(num * (bd : Int) < bn * (den : Int))
   | none => true) &&
  (match f.max_value with
   | some (bn, bd) => !(num * (bd : Int) > bn * (den : Int))
   | none => true)

def boolTrueWords : List Str :=
  [ "1".toList, "true".toList, "yes".toList, "on".toList ]

def boolFalseWords : List Str :=
  [ "0".toList, "false".toList, "no".toList, "off".toList ]

/-- `_normalize_value` (runtime_config.py lines 382-425): `none` models the
raised `ValueError`. -/
def normalizeValue (f : RuntimeConfigField) (raw : PyVal) : Option PyVal :=
  if f.value_type = "bool".toList then
    match raw with
    | .pb b => some (.pb b)
    | .pi n => some (.pb (n ≠ 0))
    | .pf num _ => some (.pb (num ≠ 0))
    | _ =>
      let txt := pyLower (stripStr (pyStr raw))
      if boolTrueWords.contains txt then some (.pb true)
      else if boolFalseWords.contains txt then some (.pb false)
      else none
  else if f.value_type = "int".toList then
    match pyInt raw with
    | some v => if checkRange f v 1 then some (.pi v) else none
    | none => none
  else if f.value_type = "float".toList then
    match pyFloat raw with
    | some (num, den) => if checkRange f num den then some (.pf num den) else none
    | none => none
  else if f.value_type = "enum".toList then
    let v := pyLower (stripStr (pyStr raw))
    if f.options.contains v then some (.ps v) else none
  else if f.value_type = "csv".toList then
    match raw with
    | .plist xs =>
      some (.ps (List.intercalate [ ',' ]
        ((xs.map stripStr).filter (fun x => !x.isEmpty))))
    | _ =>
      some (.ps (List.intercalate [ ',' ]
        (((splitOnChar ',' (pyStr raw)).map stripStr).filter (fun x => !x.isEmpty))))
  else some (.ps (pyStr raw))

/-- `EDITABLE_FIELDS` (runtime_config.py lines 34-207), keyed by config
key. -/
def editableFields : List (Str × RuntimeConfigField) :=
  [ ("AUDIT_BATCH_SIZE".toList, { value_type := "int".toList, min_value := some (1, 1), max_value := some (20000, 1) }),
    ("AUDIT_FLUSH_INTERVAL_SECONDS".toList, { value_type := "float".toList, min_value := some (1, 10), max_value := some (30, 1) }),
    ("AUDIT_POLL_INTERVAL_SECONDS".toList, { value_type := "float".toList, min_value := some (1, 20), max_value := some (10, 1) }),
    ("AUDIT_ERROR_MIN_LEVEL".toList, { value_type := "enum".toList, options := [ "debug".toList, "info".toList, "warning".toList, "error".toList ] }),
    ("AUDIT_ERROR_DROP_NOISE".toList, { value_type := "bool".toList }),
    ("AUDIT_DROP_API_TO_API".toList, { value_type := "bool".toList }),
    ("AUDIT_DROP_LOOPBACK_TRAFFIC".toList, { value_type := "bool".toList }),
    ("AUDIT_DROP_INVALID_VLESS_PROBE".toList, { value_type := "bool".toList }),
    ("AUDIT_EXCLUDE_DETOURS".toList, { value_type := "csv".toList }),
    ("AUDIT_RETENTION_DAYS".toList, { value_type := "int".toList, min_value := some (1, 1), max_value := some (3650, 1) }),
    ("AUDIT_RETENTION_CLEANUP_INTERVAL_SECONDS".toList, { value_type := "int".toList, min_value := some (60, 1), max_value := some (86400, 1) }),
    ("AUDIT_RETENTION_DELETE_BATCH_SIZE".toList, { value_type := "int".toList, min_value := some (100, 1), max_value := some (200000, 1) }),
    ("AUDIT_GEOIP_ENABLED".toList, { value_type := "bool".toList }),
    ("AUDIT_GEOIP_TIMEOUT_SECONDS".toList, { value_type := "float".toList, min_value := some (1, 2), max_value := some (30, 1) }),
    ("AUDIT_GEOIP_CACHE_TTL_HOURS".toList, { value_type := "int".toList, min_value := some (1, 1), max_value := some (8760, 1) }),
    ("AUDIT_GEOIP_BATCH_LIMIT".toList, { value_type := "int".toList, min_value := some (1, 1), max_value := some (2000, 1) }),
    ("AUDIT_REDIS_ENABLED".toList, { value_type := "bool".toList }),
    ("AUDIT_AI_SUMMARY_ENABLED".toList, { value_type := "bool".toList }),
    ("AUDIT_AI_SUMMARY_INTERVAL_SECONDS".toList, { value_type := "int".toList, min_value := some (10, 1), max_value := some (86400, 1) }),
    ("AUDIT_AI_SUMMARY_WINDOW_MINUTES".toList, { value_type := "int".toList, min_value := some (1, 1), max_value := some (1440, 1) }),
    ("AUDIT_AI_SUMMARY_MAX_ITEMS".toList, { value_type := "int".toList, min_value := some (20, 1), max_value := some (5000, 1) }) ]

def lookupField (key : Str) : Option RuntimeConfigField :=
  (editableFields.lookup key)

/-- The normalization pass of `update_items` (runtime_config.py lines
364-371): stop at the first unknown key or invalid value. -/
def normalizeItems : List (Str × PyVal) → Option (List (Str × PyVal))
  | [] => some []
  | (k, v) :: rest =>
    match lookupField k with
    | none => none
    | some f =>
      match normalizeValue f v with
      | none => none
      | some nv => (normalizeItems rest).map (fun r => (k, nv) :: r)

/-- The persisted runtime-config tables: the override rows and the
append-only history (key, old value, new value). -/
structure ConfigDb where
  overrides : List (Str × PyVal)
  history : List (Str × Option PyVal × PyVal)
deriving DecidableEq, Repr

def upsertOverride (key : Str) (v : PyVal) : List (Str × PyVal) → List (Str × PyVal)
  | [] => [ (key, v) ]
  | (k, old) :: rest =>
    if k = key then (k, v) :: rest else (k, old) :: upsertOverride key v rest

/-- `AuditQueryService.runtime_config_upsert` (storage.py lines 459-493):
per key, one upsert plus one history row, committed together. -/
def applyUpserts (db : ConfigDb) : List (Str × PyVal) → ConfigDb
  | [] => db
  | (k, v) :: rest =>
    let old := db.overrides.lookup k
    applyUpserts
      { overrides := upsertOverride k v db.overrides
        history := db.history ++ [ (k, old, v) ] } rest

/-- `update_items` (runtime_config.py lines 364-379): validate the whole
batch, then persist; `none` in the second component models the raised
`ValueError`, in which case nothing was persisted. -/
def updateItems (db : ConfigDb) (values : List (Str × PyVal)) :
    ConfigDb × Option Unit :=
  match normalizeItems values with
  | none => (db, none)
  | some normalized => (applyUpserts db normalized, some ())

/-! ## Concrete inputs for witnesses and counterexamples -/

/-- A one-line access log `a\n` on inode 1. -/
def cxFsA : Fs := ⟨true, 1, fun i => if i = 1 then "a\n".toList else []⟩

/-- The same file truncated to zero bytes (copytruncate keeps inode 1). -/
def cxFs0 : Fs := ⟨true, 1, fun _ => []⟩

/-- The file after `b\n` is written post-truncation. -/
def cxFsB : Fs := ⟨true, 1, fun i => if i = 1 then "b\n".toList else []⟩

/-- A four-byte log `abc\n` on inode 1. -/
def cxFsAbc : Fs := ⟨true, 1, fun i => if i = 1 then "abc\n".toList else []⟩

def cxS0 : SysSt := ⟨cxFsAbc, ⟨none, none, 0⟩, none, 0⟩

def cxStepsA : List CStep := [ CStep.poll 64, CStep.flush ]

def cxStepsB : List CStep :=
  [ CStep.env cxFs0, CStep.poll 64, CStep.env cxFsB, CStep.poll 64, CStep.flush ]

def c2wS0 : SysSt := ⟨cxFsA, ⟨none, none, 0⟩, none, 0⟩

def c2wSteps : List CStep := [ CStep.poll 4096, CStep.flush ]

def c4Line : Str := "2026/02/18 10:11:55 [Warning] app: boom".toList

def c4Ev : ParsedErrorEvent :=
  { event_time := ⟨2026, 2, 18, 10, 11, 55, 0⟩
    level := "warning".toList
    session_id := none
    component := "app".toList
    message := "boom".toList
    src := []
    dest_raw := []
    dest_host := []
    dest_port := none
    category := "runtime_warning".toList
    is_noise := false
    raw_line := c4Line }

def c6Line : Str :=
  "2026/02/18 10:00:00.123456 from 1.2.3.4:12345 accepted tcp:".toList

def c6wLine : Str :=
  "2026/02/18 10:00:00 from 1.2.3.4:9 accepted example.com:80".toList

def c6wAcc : AccessEvent :=
  { event_time := ⟨2026, 2, 18, 10, 0, 0, 0⟩
    user_email := "unknown".toList
    src := "1.2.3.4:9".toList
    dest_raw := "example.com:80".toList
    dest_host := "example.com".toList
    dest_port := some 80
    status := "accepted".toList
    detour := []
    reason := []
    is_domain := true
    confidence := "high".toList }

def c6wEv : ParsedEvent :=
  { event_time := ⟨2026, 2, 18, 10, 0, 0, 0⟩
    event_type := "access".toList
    raw_line := c6wLine
    access := some c6wAcc
    dns := none }

def c8Line : Str :=
  "2026/02/18 10:00:00.123456 from 1.2.3.4:12345 accepted tcp:example.com:443 [socks-in -> direct] email: user@example.com".toList

def c9Acc : AccessEvent :=
  { event_time := ⟨2026, 2, 18, 10, 0, 0, 0⟩
    user_email := "u".toList
    src := "127.0.0.1:50000".toList
    dest_raw := "tcp:127.0.0.1:62789".toList
    dest_host := "127.0.0.1".toList
    dest_port := some 62789
    status := "accepted".toList
    detour := "api -> api".toList
    reason := []
    is_domain := false
    confidence := "low".toList }

def c9Ev : ParsedEvent :=
  { event_time := ⟨2026, 2, 18, 10, 0, 0, 0⟩
    event_type := "access".toList
    raw_line := []
    access := some c9Acc
    dns := none }

def c9Cfg : FilterConfig :=
  { drop_api_to_api := true
    drop_loopback_traffic := true
    drop_invalid_vless_probe := false
    exclude_detours := [] }

def c10Line : Str :=
  "2026/02/18 10:11:55.397153 [Info] proxy/vless/encoding: invalid request version from 1.2.3.4:2222".toList

def c10Ev : ParsedErrorEvent :=
  { event_time := ⟨2026, 2, 18, 10, 11, 55, 397153⟩
    level := "info".toList
    session_id := none
    component := "proxy/vless/encoding".toList
    message := "invalid request version from 1.2.3.4:2222".toList
    src := "1.2.3.4:2222".toList
    dest_raw := []
    dest_host := []
    dest_port := none
    category := "probe_invalid_vless".toList
    is_noise := true
    raw_line := c10Line }

/-- The twelve strings `_classify` can return. -/
def errorCategories : List Str :=
  [ "probe_invalid_vless".toList, "api_loopback".toList, "dns_error".toList,
    "dns_info".toList, "network_timeout".toList, "network_refused".toList,
    "auth_error".toList, "routing".toList, "runtime_error".toList,
    "runtime_warning".toList, "debug_trace".toList, "runtime_info".toList ]

/-- The four drop predicates of `should_drop_event`, stated separately:
api-to-api detour. -/
def dropApiPred (cfg : FilterConfig) (a : AccessEvent) : Prop :=
  cfg.drop_api_to_api = true ∧ a.detour = "api -> api".toList

/-- Excluded detour set. -/
def dropDetourPred (cfg : FilterConfig) (a : AccessEvent) : Prop :=
  cfg.exclude_detours.contains a.detour = true

/-- Invalid VLESS probe. -/
def dropVlessPred (cfg : FilterConfig) (a : AccessEvent) : Prop :=
  cfg.drop_invalid_vless_probe = true ∧ a.status = "rejected".toList ∧
    a.dest_raw = "proxy/vless/encoding:".toList ∧
    containsSub (pyLower a.reason) "invalid request version".toList = true

/-- Loopback source or destination. -/
def dropLoopbackPred (cfg : FilterConfig) (a : AccessEvent) : Prop :=
  cfg.drop_loopback_traffic = true ∧
    ("127.0.0.1".toList.isPrefixOf (pyLower a.src) = true ∨
      "[::1]".toList.isPrefixOf (pyLower a.src) = true ∨
      "::1".toList.isPrefixOf (pyLower a.src) = true ∨
      [ "127.0.0.1".toList, "localhost".toList, "::1".toList,
        "[::1]".toList ].contains (pyLower a.dest_host) = true)

/-- A key/value pair the schema accepts. -/
def kvValid (k : Str) (v : PyVal) : Prop :=
  ∃ f, lookupField k = some f ∧ (normalizeValue f v).isSome = true

/-! ## Theorems -/

/-- C1: the claim asserts that the commit of a batch's event rows strictly
precedes the commit of the `collector_state` offset update for the same
file.  `_flush` does this for the access log, but for the error log it
commits the offset update (collector.py line 133, committed by
`save_state`) *before* committing the error event rows (line 135): the
evaluation below exhibits the commit order of a flush, first with both
batches non-empty and then with only the error batch non-empty. -/
theorem flush_error_offset_commit_precedes_rows :
    flushCommits "access.log".toList "error.log".toList true true true =
      [ DbCommit.eventRows "access.log".toList,
        DbCommit.offsetUpdate "access.log".toList,
        DbCommit.offsetUpdate "error.log".toList,
        DbCommit.errorEventRows "error.log".toList ] ∧
    flushCommits "access.log".toList "error.log".toList false true true =
      [ DbCommit.offsetUpdate "access.log".toList,
        DbCommit.offsetUpdate "error.log".toList,
        DbCommit.errorEventRows "error.log".toList ] := by
  exact ⟨rfl, rfl⟩

/-- C7: DNS duration tokens with units ns, us, ms, s, m and h convert to
integer milliseconds truncating toward zero; in particular `250us`, `12ms`,
`1.5s` and `2m` yield 0, 12, 1500 and 120000. -/
theorem parse_duration_unit_tokens :
    parseDurationMs "250us".toList = some 0 ∧
    parseDurationMs "12ms".toList = some 12 ∧
    parseDurationMs "1.5s".toList = some 1500 ∧
    parseDurationMs "2m".toList = some 120000 ∧
    parseDurationMs "2500ns".toList = some 0 ∧
    parseDurationMs "0.25h".toList = some 900000 := by
  decide

/-- C8: parsing the concrete access line yields an access event with the
claimed user email, destination host and port, domain flag, status and
detour. -/
theorem parse_access_concrete_line :
    (parseLine c8Line).map (fun pe => pe.event_type) = some "access".toList ∧
    ((parseLine c8Line).bind (fun pe => pe.access)).map (fun a => a.user_email) =
      some "user@example.com".toList ∧
    ((parseLine c8Line).bind (fun pe => pe.access)).map (fun a => a.dest_host) =
      some "example.com".toList ∧
    ((parseLine c8Line).bind (fun pe => pe.access)).map (fun a => a.dest_port) =
      some (some 443) ∧
    ((parseLine c8Line).bind (fun pe => pe.access)).map (fun a => a.is_domain) =
      some true ∧
    ((parseLine c8Line).bind (fun pe => pe.access)).map (fun a => a.status) =
      some "accepted".toList ∧
    ((parseLine c8Line).bind (fun pe => pe.access)).map (fun a => a.detour) =
      some "socks-in -> direct".toList := by
  decide

/-- C6 counterexample: the access line with destination token `tcp:`
parses to an access event whose `dest_host` is the empty string; the empty
string is not parseable as an IP address, yet `is_domain` is `false` (and
`confidence` is `low`), refuting `is_domain ↔ ¬ is_ip dest_host` as
stated. -/
theorem is_domain_empty_host_example :
    ((parseLine c6Line).bind (fun pe => pe.access)).map (fun a => a.dest_host) =
      some [] ∧
    isIp [] = false ∧
    ((parseLine c6Line).bind (fun pe => pe.access)).map (fun a => a.is_domain) =
      some false ∧
    ((parseLine c6Line).bind (fun pe => pe.access)).map (fun a => a.confidence) =
      some "low".toList := by
  decide

/-- C4: every parsed error event the collector loop appends to the error
batch (and hence stores) has `level_rank` at least the configured minimum
rank, and the ranks are debug = 10, info = 20, warning = 30, error = 40,
unknown = 0. -/
theorem error_batch_min_level :
    (∀ (minLevel : Str) (dropNoise : Bool) (lines : List Str)
        (ev : ParsedErrorEvent),
        ev ∈ collectErrorBatch lines (levelRank minLevel) dropNoise →
        levelRank minLevel ≤ levelRank ev.level) ∧
    levelRank "debug".toList = 10 ∧ levelRank "info".toList = 20 ∧
    levelRank "warning".toList = 30 ∧ levelRank "error".toList = 40 ∧
    levelRank "unknown".toList = 0 := by
  refine ⟨?_, by decide, by decide, by decide, by decide, by decide⟩
  intro minLevel dropNoise lines ev hmem
  unfold collectErrorBatch at hmem
  rw [List.mem_filter] at hmem
  have h2 := hmem.2
  simp only [Bool.and_eq_true, Bool.not_eq_true'] at h2
  have h3 := of_decide_eq_false h2.1
  omega

/-- Witness for C4 at the minimum level `info` and a warning-level line. -/
theorem error_batch_min_level_witness :
    c4Ev ∈ collectErrorBatch [ c4Line ] (levelRank "info".toList) false ∧
    levelRank "info".toList ≤ levelRank c4Ev.level :=
  ⟨by decide,
    error_batch_min_level.1 "info".toList false [ c4Line ] c4Ev (by decide)⟩

/-- If one batch entry is invalid (unknown key or failing value
validation), `normalize` raises before anything is persisted. -/
theorem normalizeItems_eq_none (values : List (Str × PyVal)) (k : Str) (v : PyVal)
    (hmem : (k, v) ∈ values)
    (hbad : ∀ f, lookupField k = some f → normalizeValue f v = none) :
    normalizeItems values = none := by
  induction values with
  | nil => cases hmem
  | cons hd tl ih =>
    rcases List.mem_cons.mp hmem with heq | hmem2
    · subst heq
      simp only [normalizeItems]
      cases hlf : lookupField k with
      | none => rfl
      | some f => simp [hbad f hlf]
    · obtain ⟨k2, v2⟩ := hd
      simp only [normalizeItems]
      cases hlf : lookupField k2 with
      | none => rfl
      | some f =>
        cases hnv : normalizeValue f v2 with
        | none => simp [hnv]
        | some nv => simp [hnv, ih hmem2]

/-- C5: if any key of the batch is not in the editable schema or any value
fails its field validation, `update_items` raises and the persisted
configuration is unchanged — no upsert and no history row for any key of
the batch. -/
theorem update_items_rejects_whole_batch (db : ConfigDb)
    (values : List (Str × PyVal)) (k : Str) (v : PyVal)
    (hmem : (k, v) ∈ values) (hbad : ¬ kvValid k v) :
    updateItems db values = (db, none) := by
  have hbad2 : ∀ f, lookupField k = some f → normalizeValue f v = none := by
    intro f hf
    cases hnv : normalizeValue f v with
    | none => rfl
    | some nv => exact absurd ⟨f, hf, by rw [hnv]; rfl⟩ hbad
  unfold updateItems
  rw [normalizeItems_eq_none values k v hmem hbad2]

/-- Witness for C5: a batch with a valid entry followed by an unknown key
is rejected whole, leaving the store untouched; likewise a flush interval
of 0.05, below the schema minimum 0.1, fails range validation and nothing
is persisted. -/
theorem update_items_rejects_whole_batch_witness :
    ¬ kvValid "BAD_KEY".toList (PyVal.pi 1) ∧
    updateItems ⟨[], []⟩
        [ ("AUDIT_BATCH_SIZE".toList, PyVal.pi 5),
          ("BAD_KEY".toList, PyVal.pi 1) ] =
      (⟨[], []⟩, none) ∧
    updateItems ⟨[], []⟩
        [ ("AUDIT_FLUSH_INTERVAL_SECONDS".toList, PyVal.pf 1 20) ] =
      (⟨[], []⟩, none) := by
  have hnk : ¬ kvValid "BAD_KEY".toList (PyVal.pi 1) := by
    rintro ⟨f, hf, -⟩
    have hn : lookupField "BAD_KEY".toList = none := by decide
    rw [hn] at hf
    cases hf
  exact ⟨hnk,
    update_items_rejects_whole_batch _ _ "BAD_KEY".toList (PyVal.pi 1)
      (by decide) hnk,
    by decide⟩

/-- The fields `_parse_access` derives from `dest_host`. -/
theorem parseAccess_fields (dt : PyDateTime) (body : Str) (a : AccessEvent)
    (h : parseAccess dt body = some a) :
    a.is_domain = (!a.dest_host.isEmpty && !isIp a.dest_host) ∧
    a.confidence = (if a.is_domain then "high".toList else "low".toList) := by
  unfold parseAccess at h
  cases hm : matchAccess body with
  | none => rw [hm] at h; cases h
  | some g =>
    rw [hm] at h
    simp only [Option.some.injEq] at h
    subst h
    exact ⟨rfl, rfl⟩

/-- An access event inside a `parse_line` result comes from `_parse_access`. -/
theorem parseLine_access (line : Str) (pe : ParsedEvent) (a : AccessEvent)
    (hpe : parseLine line = some pe) (ha : pe.access = some a) :
    ∃ dt body, parseAccess dt body = some a := by
  unfold parseLine at hpe
  cases hts : parseTimestampPrefix line with
  | none => rw [hts] at hpe; cases hpe
  | some p =>
    obtain ⟨dt, body⟩ := p
    rw [hts] at hpe
    simp only at hpe
    cases hacc : parseAccess dt body with
    | some acc =>
      rw [hacc] at hpe
      simp only [Option.some.injEq] at hpe
      subst hpe
      simp only [Option.some.injEq] at ha
      subst ha
      exact ⟨dt, body, hacc⟩
    | none =>
      rw [hacc] at hpe
      cases hdns : parseDns dt body with
      | some d =>
        rw [hdns] at hpe
        simp only [Option.some.injEq] at hpe
        subst hpe
        cases ha
      | none =>
        rw [hdns] at hpe
        simp only [Option.some.injEq] at hpe
        subst hpe
        cases ha

/-- C6 (amended): for every parsed access event, `is_domain` holds iff
`dest_host` is non-empty and not parseable as an IP address, and
`confidence` is `high` iff `is_domain` (the original claim omits the
non-emptiness condition, refuted by `is_domain_empty_host_example`). -/
theorem is_domain_iff_nonempty_not_ip (line : Str) (pe : ParsedEvent)
    (a : AccessEvent) (hpe : parseLine line = some pe)
    (ha : pe.access = some a) :
    (a.is_domain = true ↔ (a.dest_host ≠ [] ∧ isIp a.dest_host = false)) ∧
    (a.confidence = "high".toList ↔ a.is_domain = true) := by
  obtain ⟨dt, body, hacc⟩ := parseLine_access line pe a hpe ha
  obtain ⟨hdom, hconf⟩ := parseAccess_fields dt body a hacc
  constructor
  · rw [hdom]
    simp [Bool.and_eq_true, Bool.not_eq_true', List.isEmpty_iff]
  · rw [hconf]
    cases a.is_domain with
    | true => decide
    | false => decide

/-- Witness for C6 at a concrete domain-destination line. -/
theorem is_domain_iff_nonempty_not_ip_witness :
    parseLine c6wLine = some c6wEv ∧ c6wEv.access = some c6wAcc ∧
    ((c6wAcc.is_domain = true ↔
        (c6wAcc.dest_host ≠ [] ∧ isIp c6wAcc.dest_host = false)) ∧
      (c6wAcc.confidence = "high".toList ↔ c6wAcc.is_domain = true)) :=
  ⟨by decide, rfl,
    is_domain_iff_nonempty_not_ip c6wLine c6wEv c6wAcc (by decide) rfl⟩

/-- A membership test only succeeds on a non-empty list. -/
theorem contains_nonempty {l : List Str} {x : Str} (h : l.contains x = true) :
    (!l.isEmpty) = true := by
  cases l with
  | nil => cases h
  | cons hd tl => rfl

/-- C9: `should_drop_event` is a pure function of the event and the filter
configuration: events without an access payload are always kept, and an
access event is dropped iff one of the four configured predicates holds. -/
theorem should_drop_iff_disjunction (ev : ParsedEvent) (cfg : FilterConfig) :
    (ev.access = none → shouldDropEvent ev cfg = false) ∧
    (∀ a, ev.access = some a →
      (shouldDropEvent ev cfg = true ↔
        dropApiPred cfg a ∨ dropDetourPred cfg a ∨ dropVlessPred cfg a ∨
          dropLoopbackPred cfg a)) := by
  constructor
  · intro h
    simp [shouldDropEvent, h]
  · intro a ha
    simp only [shouldDropEvent, ha]
    split_ifs with h1 h2 h3 h4
    · refine iff_of_true rfl (Or.inl ?_)
      rw [Bool.and_eq_true, decide_eq_true_eq] at h1
      exact h1
    · refine iff_of_true rfl (Or.inr (Or.inl ?_))
      rw [Bool.and_eq_true] at h2
      exact h2.2
    · refine iff_of_true rfl (Or.inr (Or.inr (Or.inl ?_)))
      simp only [Bool.and_eq_true, decide_eq_true_eq] at h3
      exact ⟨h3.1, h3.2.1.1, h3.2.1.2, h3.2.2⟩
    · refine iff_of_true rfl (Or.inr (Or.inr (Or.inr ?_)))
      simp only [Bool.and_eq_true, Bool.or_eq_true] at h4
      rcases h4 with ⟨hpl, ((h | h) | h) | h⟩
      · exact ⟨hpl, Or.inl h⟩
      · exact ⟨hpl, Or.inr (Or.inl h)⟩
      · exact ⟨hpl, Or.inr (Or.inr (Or.inl h))⟩
      · exact ⟨hpl, Or.inr (Or.inr (Or.inr h))⟩
    · refine iff_of_false (by simp) ?_
      rintro (hp | hp | hp | hp)
      · exact h1 (by rw [Bool.and_eq_true, decide_eq_true_eq]; exact hp)
      · exact h2 (by rw [Bool.and_eq_true]; exact ⟨contains_nonempty hp, hp⟩)
      · refine h3 ?_
        simp only [Bool.and_eq_true, decide_eq_true_eq]
        exact ⟨hp.1, ⟨hp.2.1, hp.2.2.1⟩, hp.2.2.2⟩
      · refine h4 ?_
        simp only [Bool.and_eq_true, Bool.or_eq_true]
        rcases hp with ⟨hpl, h | h | h | h⟩
        · exact ⟨hpl, Or.inl (Or.inl (Or.inl h))⟩
        · exact ⟨hpl, Or.inl (Or.inl (Or.inr h))⟩
        · exact ⟨hpl, Or.inl (Or.inr h)⟩
        · exact ⟨hpl, Or.inr h⟩

/-- Witness for C9: the spec's loopback/api scenario is dropped, and a
DNS-style event (no access payload) is kept. -/
theorem should_drop_iff_disjunction_witness :
    shouldDropEvent c9Ev c9Cfg = true ∧
    shouldDropEvent { c9Ev with access := none } c9Cfg = false :=
  ⟨((should_drop_iff_disjunction c9Ev c9Cfg).2 c9Acc rfl).mpr
      (Or.inl (by constructor <;> rfl)),
    (should_drop_iff_disjunction { c9Ev with access := none } c9Cfg).1 rfl⟩

/-- `_classify` always lands in the twelve-element range and never returns
`scan_noise`. -/
theorem classify_mem (c msg lvl : Str) :
    classify c msg lvl ∈ errorCategories ∧
      classify c msg lvl ≠ "scan_noise".toList := by
  have hrange : classify c msg lvl ∈ errorCategories := by
    simp only [classify]
    repeat' split
    all_goals decide
  have hall : ∀ r ∈ errorCategories, r ≠ "scan_noise".toList := by decide
  exact ⟨hrange, hall _ hrange⟩

/-- C10: `_classify` is total with range the twelve listed categories
(`scan_noise` excluded), so every parsed error event with `is_noise` has
category `probe_invalid_vless` or `api_loopback`. -/
theorem classify_range_and_noise :
    (∀ c msg lvl, classify c msg lvl ∈ errorCategories ∧
        classify c msg lvl ≠ "scan_noise".toList) ∧
    (∀ line ev, parseErrorLine line = some ev → ev.is_noise = true →
        ev.category = "probe_invalid_vless".toList ∨
          ev.category = "api_loopback".toList) := by
  refine ⟨classify_mem, ?_⟩
  intro line ev hp hn
  unfold parseErrorLine at hp
  split at hp
  · exact Option.noConfusion hp
  · split at hp
    · exact Option.noConfusion hp
    · simp only [Option.some.injEq] at hp
      subst hp
      simp only [Bool.or_eq_true, decide_eq_true_eq] at hn
      rcases hn with (hc | hc) | hc
      · exact Or.inl hc
      · exact Or.inr hc
      · exact absurd hc (classify_mem _ _ _).2

/-- Witness for C10 at the invalid-VLESS-probe scenario line. -/
theorem classify_range_and_noise_witness :
    parseErrorLine c10Line = some c10Ev ∧ c10Ev.is_noise = true ∧
    (c10Ev.category = "probe_invalid_vless".toList ∨
      c10Ev.category = "api_loopback".toList) :=
  ⟨by decide, rfl,
    classify_range_and_noise.2 c10Line c10Ev (by decide) rfl⟩

/-- A read loop that produced no line left the tailer untouched. -/
theorem readLoop_fst_nil (fs : Fs) (n : Nat) (t : TailerSt)
    (hnil : (readLoop fs n t).1 = []) : readLoop fs n t = ([], t) := by
  cases n with
  | zero => rfl
  | succ n =>
    simp only [readLoop] at hnil ⊢
    cases hfh : t.fh with
    | none => rfl
    | some h =>
      simp only [hfh] at hnil ⊢
      by_cases hline : (readlineAt (fs.files h.ino) h.pos).isEmpty
      · simp [hline]
      · simp [hline] at hnil

/-- If every open handle is at EOF, the read loop stops at once. -/
theorem readLoop_nil_of_stop (fs : Fs) (n : Nat) (t : TailerSt)
    (hstop : ∀ h, t.fh = some h → readlineAt (fs.files h.ino) h.pos = []) :
    readLoop fs n t = ([], t) := by
  cases n with
  | zero => rfl
  | succ n =>
    simp only [readLoop]
    cases hfh : t.fh with
    | none => rfl
    | some h => simp [hstop h hfh]

/-- The read loop preserves the tailer invariants, never decreases the
offset, and never touches the stored inode. -/
theorem readLoop_mono (fs : Fs) (n : Nat) (t : TailerSt)
    (hp : posCons t) (hi : inoCons t) :
    posCons (readLoop fs n t).2 ∧ inoCons (readLoop fs n t).2 ∧
      t.offset ≤ (readLoop fs n t).2.offset ∧
      (readLoop fs n t).2.inode = t.inode := by
  induction n generalizing t with
  | zero => exact ⟨hp, hi, le_refl _, rfl⟩
  | succ n ih =>
    cases hfh : t.fh with
    | none =>
      simp only [readLoop, hfh]
      exact ⟨hp, hi, le_refl _, trivial⟩
    | some h =>
      simp only [readLoop, hfh]
      by_cases hline : (readlineAt (fs.files h.ino) h.pos).isEmpty
      · simp only [hline, if_true]
        exact ⟨hp, hi, le_refl _, trivial⟩
      · simp only [hline, if_false, Bool.false_eq_true]
        have hpos : h.pos = t.offset := by
          simp only [posCons, hfh] at hp
          exact hp
        have hino : t.inode = some h.ino := by
          simp only [inoCons, hfh] at hi
          exact hi
        set t1 : TailerSt :=
          { t with
            fh := some ⟨h.ino, h.pos + (readlineAt (fs.files h.ino) h.pos).length⟩,
            offset := h.pos + (readlineAt (fs.files h.ino) h.pos).length } with ht1
        have hp1 : posCons t1 := by simp [posCons, ht1]
        have hi1 : inoCons t1 := by simp [inoCons, ht1, hino]
        obtain ⟨q1, q2, q3, q4⟩ := ih t1 hp1 hi1
        refine ⟨q1, q2, ?_, q4⟩
        have : t1.offset = h.pos + (readlineAt (fs.files h.ino) h.pos).length := rfl
        omega

/-- `_open` yields a consistent state and only lowers the offset when the
file is smaller than it. -/
theorem tailerOpen_snd (fs : Fs) (t : TailerSt) (hp : posCons t) (hi : inoCons t) :
    posCons (tailerOpen fs t).2 ∧ inoCons (tailerOpen fs t).2 ∧
      ((tailerOpen fs t).2.offset = t.offset ∨
        ((tailerOpen fs t).2.offset = 0 ∧ statSize fs < t.offset)) := by
  unfold tailerOpen
  by_cases hpres : fs.present
  · by_cases hsz : statSize fs < t.offset
    · simp [hpres, hsz, posCons, inoCons]
    · simp [hpres, hsz, posCons, inoCons]
  · simp only [hpres, if_false, Bool.false_eq_true]
    exact ⟨hp, hi, Or.inl trivial⟩

/-- `_check_rotation_or_truncate` preserves the invariants and changes the
state only on an observed inode change or truncation. -/
theorem check_cases (fs : Fs) (t : TailerSt) (hp : posCons t) (hi : inoCons t) :
    posCons (checkRotationOrTruncate fs t) ∧
      inoCons (checkRotationOrTruncate fs t) ∧
      (checkRotationOrTruncate fs t = t ∨
        (∃ i, t.inode = some i ∧ fs.curInode ≠ i) ∨ statSize fs < t.offset) := by
  unfold checkRotationOrTruncate
  by_cases hpres : fs.present
  · by_cases hrot : t.inode.any (fun i => fs.curInode != i) = true
    · have hex : ∃ i, t.inode = some i ∧ fs.curInode ≠ i := by
        cases hio : t.inode with
        | none => rw [hio] at hrot; cases hrot
        | some i =>
          rw [hio] at hrot
          exact ⟨i, rfl, bne_iff_ne.mp hrot⟩
      refine ⟨?_, ?_, Or.inr (Or.inl hex)⟩ <;>
        simp [hpres, hrot, tailerOpen, posCons, inoCons]
    · by_cases htr : (statSize fs < t.offset && t.fh.isSome) = true
      · rw [Bool.and_eq_true, decide_eq_true_eq] at htr
        obtain ⟨hsz, hsome⟩ := htr
        refine ⟨?_, ?_, Or.inr (Or.inr hsz)⟩ <;>
        · cases hfh : t.fh with
          | none => rw [hfh] at hsome; cases hsome
          | some h =>
            simp only [posCons, inoCons, hpres, hrot, hsz, hfh] at hp hi ⊢
            simp [hp, hi]
      · refine ⟨?_, ?_, Or.inl ?_⟩ <;> simp [hpres, hrot, htr, hp, hi]
  · simp only [hpres]
    exact ⟨hp, hi, Or.inl rfl⟩

/-- The post-open phase preserves the tailer invariants, and its offset can
only fail to grow when it observed an inode change or a truncation below
the stored offset. -/
theorem readPhase_cases (fs : Fs) (ml : Nat) (t1 : TailerSt)
    (hp : posCons t1) (hi : inoCons t1) :
    posCons (readPhase fs ml t1).2 ∧ inoCons (readPhase fs ml t1).2 ∧
      (t1.offset ≤ (readPhase fs ml t1).2.offset ∨
        (∃ i, t1.inode = some i ∧ fs.curInode ≠ i) ∨
        statSize fs < t1.offset) := by
  by_cases hout : (readLoop fs ml t1).1.isEmpty
  · have hloop : readLoop fs ml t1 = ([], t1) :=
      readLoop_fst_nil fs ml t1 (List.isEmpty_iff.mp hout)
    have hres : readPhase fs ml t1 = ([], checkRotationOrTruncate fs t1) := by
      simp [readPhase, hloop]
    rw [hres]
    obtain ⟨q1, q2, q3⟩ := check_cases fs t1 hp hi
    refine ⟨q1, q2, ?_⟩
    rcases q3 with heq | hr
    · rw [heq]
      exact Or.inl (le_refl _)
    · exact Or.inr hr
  · have hres : readPhase fs ml t1 = ((readLoop fs ml t1).1, (readLoop fs ml t1).2) := by
      simp [readPhase, hout]
    rw [hres]
    obtain ⟨q1, q2, q3, q4⟩ := readLoop_mono fs ml t1 hp hi
    exact ⟨q1, q2, Or.inl q3⟩

/-- One `read_new_lines` call preserves the tailer invariants, and the
offset can only fail to grow when the call observed an inode change or a
truncation below the stored offset. -/
theorem readNewLines_cases (fs : Fs) (t : TailerSt) (ml : Nat)
    (hp : posCons t) (hi : inoCons t) :
    posCons (readNewLines fs t ml).2 ∧ inoCons (readNewLines fs t ml).2 ∧
      (t.offset ≤ (readNewLines fs t ml).2.offset ∨
        (∃ i, t.inode = some i ∧ fs.curInode ≠ i) ∨
        statSize fs < t.offset) := by
  cases hfh : t.fh with
  | some h =>
    have hres : readNewLines fs t ml = readPhase fs ml t := by
      simp [readNewLines, hfh]
    rw [hres]
    exact readPhase_cases fs ml t hp hi
  | none =>
    by_cases hpres : fs.present
    · have hres : readNewLines fs t ml = readPhase fs ml (tailerOpen fs t).2 := by
        simp [readNewLines, hfh, tailerOpen, hpres]
      rw [hres]
      obtain ⟨p1, p2, p3⟩ := tailerOpen_snd fs t hp hi
      obtain ⟨q1, q2, q3⟩ := readPhase_cases fs ml (tailerOpen fs t).2 p1 p2
      refine ⟨q1, q2, ?_⟩
      rcases p3 with hOeq | ⟨hO0, hsz⟩
      · rcases q3 with hle | ⟨i, hio, hne⟩ | hsz2
        · exact Or.inl (by rw [← hOeq]; exact hle)
        · have hOi : (tailerOpen fs t).2.inode = some fs.curInode := by
            simp [tailerOpen, hpres]
          rw [hOi] at hio
          injection hio with hio
          exact absurd hio hne
        · rw [hOeq] at hsz2
          exact Or.inr (Or.inr hsz2)
      · exact Or.inr (Or.inr hsz)
    · have hres : readNewLines fs t ml = ([], t) := by
        simp [readNewLines, hfh, tailerOpen, hpres]
      rw [hres]
      exact ⟨hp, hi, Or.inl (le_refl _)⟩

/-- The system invariant: consistent tailer, and a persisted offset that
never exceeds the in-memory one. -/
def SysInv (s : SysSt) : Prop :=
  posCons s.tl ∧ inoCons s.tl ∧ s.pOff ≤ s.tl.offset

/-- Along a reset-free run, the invariant is preserved and the persisted
offset never decreases. -/
theorem runSteps_mono (steps : List CStep) (s : SysSt) (hinv : SysInv s)
    (hfree : resetFreeRun s steps = true) :
    SysInv (runSteps s steps) ∧ s.pOff ≤ (runSteps s steps).pOff := by
  induction steps generalizing s with
  | nil => exact ⟨hinv, le_refl _⟩
  | cons st rest ih =>
    obtain ⟨hp, hi, hpo⟩ := hinv
    cases st with
    | env fs2 =>
      simp only [resetFreeRun, Bool.true_and] at hfree
      exact ih (stepRun s (CStep.env fs2)) ⟨hp, hi, hpo⟩ hfree
    | poll n =>
      simp only [resetFreeRun, Bool.and_eq_true] at hfree
      obtain ⟨hg, hrest⟩ := hfree
      simp only [noReset, Bool.and_eq_true] at hg
      obtain ⟨hg1, hg2⟩ := hg
      obtain ⟨q1, q2, q3⟩ := readNewLines_cases s.fs s.tl n hp hi
      have hoff : s.tl.offset ≤ (readNewLines s.fs s.tl n).2.offset := by
        rcases q3 with hle | ⟨i, hio, hne⟩ | hsz
        · exact hle
        · rw [hio] at hg2
          simp only [decide_eq_true_eq] at hg2
          exact absurd hg2 hne
        · rw [Bool.not_eq_true', decide_eq_false_iff_not] at hg1
          exact absurd hsz hg1
      obtain ⟨hres, hle⟩ :=
        ih (stepRun s (CStep.poll n)) ⟨q1, q2, le_trans hpo hoff⟩ hrest
      exact ⟨hres, hle⟩
    | flush =>
      simp only [resetFreeRun, Bool.true_and] at hfree
      obtain ⟨hres, hle⟩ :=
        ih (stepRun s CStep.flush) ⟨hp, hi, le_refl _⟩ hfree
      exact ⟨hres, le_trans hpo hle⟩

/-- C2 counterexample: a copytruncate cycle.  The collector reads `abc\n`
and flushes (persisted offset 4); the file is truncated in place (inode
still 1), `b\n` is written, the collector reads it and flushes again —
now the persisted offset is 2.  The inode never changed, yet
`collector_state.last_offset` decreased from 4 to 2 (and not to 0). -/
theorem persisted_offset_decrease_same_inode :
    (runSteps cxS0 cxStepsA).pOff = 4 ∧
    (runSteps (runSteps cxS0 cxStepsA) cxStepsB).pOff = 2 ∧
    (runSteps cxS0 cxStepsA).pIno = some 1 ∧
    (runSteps (runSteps cxS0 cxStepsA) cxStepsB).pIno = some 1 ∧
    (runSteps cxS0 cxStepsA).tl.inode = some 1 ∧
    (runSteps (runSteps cxS0 cxStepsA) cxStepsB).tl.inode = some 1 ∧
    cxFsAbc.curInode = 1 ∧ cxFs0.curInode = 1 ∧ cxFsB.curInode = 1 := by
  decide

/-- C2 (amended): along any run in which no poll observes an inode change
or a truncation (file size below the stored offset), the persisted
`collector_state.last_offset` never decreases.  When a poll does observe
one of those, the in-memory offset resets to 0 and may advance again
before the next flush, so the persisted value may then decrease — also to
a non-zero value — which the counterexample exhibits under an unchanged
inode. -/
theorem persisted_offset_monotone_no_reset (s : SysSt) (steps : List CStep)
    (hp : posCons s.tl) (hi : inoCons s.tl) (hpo : s.pOff ≤ s.tl.offset)
    (hfree : resetFreeRun s steps = true) :
    s.pOff ≤ (runSteps s steps).pOff :=
  (runSteps_mono steps s ⟨hp, hi, hpo⟩ hfree).2

/-- Witness for the amended C2 on a concrete reset-free run. -/
theorem persisted_offset_monotone_no_reset_witness :
    posCons c2wS0.tl ∧ inoCons c2wS0.tl ∧ c2wS0.pOff ≤ c2wS0.tl.offset ∧
    resetFreeRun c2wS0 c2wSteps = true ∧
    c2wS0.pOff ≤ (runSteps c2wS0 c2wSteps).pOff :=
  ⟨by decide, by decide, by decide, by decide,
    persisted_offset_monotone_no_reset c2wS0 c2wSteps (by decide) (by decide)
      (by decide) (by decide)⟩

/-- C3: copytruncate safety.  With the handle open on the current inode and
the stored offset past the end of the (truncated) file, `read_new_lines`
yields no line, seeks the handle to position 0 and resets the stored offset
to 0, so the next poll reads whatever bytes are written from offset 0. -/
theorem read_new_lines_truncate_reset (fs : Fs) (t : TailerSt) (h : Handle)
    (ml : Nat) (hpres : fs.present = true) (hfh : t.fh = some h)
    (hino : h.ino = fs.curInode) (htino : t.inode = some fs.curInode)
    (hpos : h.pos = t.offset) (htrunc : statSize fs < t.offset) :
    readNewLines fs t ml =
      ([], { fh := some ⟨h.ino, 0⟩, inode := t.inode, offset := 0 }) := by
  have hstop : ∀ h2, t.fh = some h2 → readlineAt (fs.files h2.ino) h2.pos = [] := by
    intro h2 hh2
    rw [hfh] at hh2
    injection hh2 with hh2
    subst hh2
    have hlen : (fs.files h.ino).length ≤ h.pos := by
      rw [hino, hpos]
      unfold statSize at htrunc
      omega
    unfold readlineAt
    rw [List.drop_eq_nil_of_le hlen]
    rfl
  have hloop : readLoop fs ml t = ([], t) := readLoop_nil_of_stop fs ml t hstop
  have hcheck : checkRotationOrTruncate fs t =
      { fh := some ⟨h.ino, 0⟩, inode := t.inode, offset := 0 } := by
    unfold checkRotationOrTruncate
    rw [htino]
    simp [hpres, htrunc, hfh]
  have hres : readNewLines fs t ml = ([], checkRotationOrTruncate fs t) := by
    simp [readNewLines, readPhase, hfh, hloop]
  rw [hres, hcheck]

/-- Witness for C3: the write/truncate/write scenario — `a\n` is read,
truncation makes the next poll yield `[]` and reset to offset 0, and the
poll after that reads `b\n` from offset 0. -/
theorem read_new_lines_truncate_reset_witness :
    (readNewLines cxFsA ⟨none, none, 0⟩ 4096).1 = [ "a\n".toList ] ∧
    (readNewLines cxFsA ⟨none, none, 0⟩ 4096).2 = ⟨some ⟨1, 2⟩, some 1, 2⟩ ∧
    readNewLines cxFs0 ⟨some ⟨1, 2⟩, some 1, 2⟩ 4096 =
      ([], ⟨some ⟨1, 0⟩, some 1, 0⟩) ∧
    (readNewLines cxFsB ⟨some ⟨1, 0⟩, some 1, 0⟩ 4096).1 = [ "b\n".toList ] :=
  ⟨by decide, by decide,
    read_new_lines_truncate_reset cxFs0 ⟨some ⟨1, 2⟩, some 1, 2⟩ ⟨1, 2⟩ 4096
      rfl rfl rfl rfl rfl (by decide),
    by decide⟩

end XrayAudit
